import Mathlib

/-!
Verification development for the krelay port-forwarding relay.

The Go sources are shallowly embedded: byte buffers and byte streams are
`List Nat` (each element a byte value), machine-integer conversions are
explicit `% 2^w` operations at exactly the places the Go code converts
(`uint16(totalLen)`, `binary.BigEndian.PutUint16`), and fallible
operations return `Except`.  Fields whose Go type is `byte` or `uint16`
carry that bound as a hypothesis where a theorem needs it.
-/

namespace Krelay

/-! ## Big-endian 16-bit integers (`encoding/binary`)

`binary.BigEndian.PutUint16` stores `byte(v >> 8)` then `byte(v)`;
`binary.BigEndian.Uint16` reads them back as `b0*256 + b1`. -/

/-- `binary.BigEndian.PutUint16` applied to a `uint16` value `v`. -/
def putUint16 (v : Nat) : List Nat :=
  [v / 256 % 256, v % 256]

/-- `binary.BigEndian.Uint16` applied to two wire bytes. -/
def getUint16 (b0 b1 : Nat) : Nat :=
  b0 * 256 + b1

theorem getUint16_putUint16 (v : Nat) (h : v < 65536) :
    getUint16 (v / 256 % 256) (v % 256) = v := by
  have h1 : v / 256 < 256 := by omega
  have h2 : v / 256 % 256 = v / 256 := Nat.mod_eq_of_lt h1
  unfold getUint16
  rw [h2]
  omega

/-! ## Address model (`pkg/xnet`, addr source file)

```go
const (
    AddrTypeIP byte = iota
    AddrTypeHost
)
type Addr struct { typ byte; data []byte }
func (a *Addr) Marshal() []byte { return a.data }
func (a *Addr) IsZero() bool { return len(a.data) == 0 }
func AddrFromBytes(addrType byte, data []byte) Addr { return Addr{typ: addrType, data: data} }
```
-/

def AddrTypeIP : Nat := 0
def AddrTypeHost : Nat := 1

structure Addr where
  typ : Nat
  data : List Nat
  deriving Repr, DecidableEq

def Addr.Marshal (a : Addr) : List Nat := a.data

def Addr.IsZero (a : Addr) : Bool := a.data.length == 0

def AddrFromBytes (addrType : Nat) (data : List Nat) : Addr :=
  { typ := addrType, data := data }

/-! ## Header codec (`pkg/xnet`, header source file, 5-byte request-ID version)

```go
const (
    lengthAllMandatoryFields = 12
    lengthRequestID          = 5
)
```

`Header.Marshal` allocates a zeroed buffer of `12 + len(addrBytes)` bytes
and writes the fields in wire order; `copy(buf[3:8], h.RequestID)` copies
`min(5, len(RequestID))` bytes, leaving any remainder zero.
`uint16(totalLen)` is the one integer conversion, modelled as `% 65536`.
-/

def lengthAllMandatoryFields : Nat := 12
def lengthRequestID : Nat := 5

structure Header where
  Version : Nat
  RequestID : List Nat
  Protocol : Nat
  Port : Nat
  Addr : Addr
  deriving Repr, DecidableEq

def Header.Marshal (h : Header) : List Nat :=
  let addrBytes := h.Addr.Marshal
  let totalLen := lengthAllMandatoryFields + addrBytes.length
  [h.Version]
    ++ putUint16 (totalLen % 65536)
    ++ (h.RequestID.take lengthRequestID
        ++ List.replicate (lengthRequestID - h.RequestID.length) 0)
    ++ [h.Protocol]
    ++ putUint16 h.Port
    ++ [h.Addr.typ]
    ++ addrBytes

/-- Failure modes of `Header.FromReader`: a short read of the 3-byte
version/length prefix, a total-length field below the 12 mandatory bytes
(Go error text: body too short), or a short read of the body. -/
inductive HeaderError where
  | readTotalLength
  | bodyTooShort (total : Nat)
  | readFullBody
  deriving Repr, DecidableEq

/-- `Header.FromReader` over an input byte stream.  Reads 3 bytes
(version + big-endian total length), rejects `totalLen < 12`, reads
exactly `totalLen - 3` body bytes, then carves out the fixed-width
fields and treats the tail as the address payload. -/
def Header.FromReader (input : List Nat) : Except HeaderError Header :=
  match input with
  | b0 :: b1 :: b2 :: rest =>
    let totalLen := getUint16 b1 b2
    if totalLen < lengthAllMandatoryFields then
      .error (.bodyTooShort totalLen)
    else if rest.length < totalLen - 3 then
      .error .readFullBody
    else
      match rest.take (totalLen - 3) with
      | r0 :: r1 :: r2 :: r3 :: r4 :: proto :: p0 :: p1 :: addrType :: payload =>
        .ok { Version := b0
              RequestID := [r0, r1, r2, r3, r4]
              Protocol := proto
              Port := getUint16 p0 p1
              Addr := AddrFromBytes addrType payload }
      | _ => .error .readFullBody
  | _ => .error .readTotalLength

/-- The address variants the round-trip claim quantifies over: a 4-byte
IPv4 or 16-byte IPv6 payload under the IP tag, or a host payload of
0 to 255 bytes under the Host tag. -/
def ValidAddrVariant (a : Addr) : Prop :=
  (a.typ = AddrTypeIP ∧ (a.data.length = 4 ∨ a.data.length = 16)) ∨
  (a.typ = AddrTypeHost ∧ a.data.length ≤ 255)

/-! ## Acknowledgement codes (`pkg/xnet`, ack source file)

```go
const (
    AckCodeOK = iota + 1
    AckCodeUnknownError
    AckCodeNoSuchHost
    AckCodeResolveTimeout
    AckCodeConnectTimeout
)
```
-/

def AckCodeOK : Nat := 1
def AckCodeUnknownError : Nat := 2
def AckCodeNoSuchHost : Nat := 3
def AckCodeResolveTimeout : Nat := 4
def AckCodeConnectTimeout : Nat := 5

/-- Modelled from the spec: `xnet.AckCodeUnknownProtocol` is referenced by the
server dispatcher but the constant's defining declaration is absent from the
sources; the spec's Acknowledgement table assigns code 6 to Unknown protocol,
which also continues the `iota + 1` sequence of the neighbouring constants. -/
def AckCodeUnknownProtocol : Nat := 6

/-- Modelled from the spec: the wire protocol byte `xnet.ProtocolTCP` is
referenced by the dispatcher and the header tests but its defining declaration
is absent from the sources; the spec's Header table assigns 0 = TCP, matching
the repository's header test vectors. -/
def ProtocolTCP : Nat := 0

/-- Modelled from the spec: the wire protocol byte `xnet.ProtocolUDP` is
referenced by the dispatcher and the header tests but its defining declaration
is absent from the sources; the spec's Header table assigns 1 = UDP, matching
the repository's header test vectors. -/
def ProtocolUDP : Nat := 1

/-! ## Server dispatcher (`cmd/server/main.go`)

`ackCodeFromErr` inspects the dial error chain: `errors.As` for a
`*net.DNSError` (fields `IsNotFound`, `IsTimeout`), then `errors.As` for a
`*net.OpError` (method `Timeout()`).  A dial error is modelled by which of
those two matches succeed and the corresponding flags. -/

structure DNSError where
  IsNotFound : Bool
  IsTimeout : Bool
  deriving Repr, DecidableEq

structure OpError where
  Timeout : Bool
  deriving Repr, DecidableEq

/-- A dial failure: `dnsErr` is the `*net.DNSError` found in the error chain
by `errors.As` (if any); `opErr` likewise for `*net.OpError`. -/
structure DialError where
  dnsErr : Option DNSError
  opErr : Option OpError
  deriving Repr, DecidableEq

/-- `ackCodeFromErr` from `cmd/server/main.go`.  The DNS checks run first;
when the DNS error matches but carries neither flag, control falls through to
the `*net.OpError` timeout check, and the default is `AckCodeUnknownError`. -/
def ackCodeFromErr (err : DialError) : Nat :=
  let opFallthrough :=
    match err.opErr with
    | some opErr => if opErr.Timeout then AckCodeConnectTimeout else AckCodeUnknownError
    | none => AckCodeUnknownError
  match err.dnsErr with
  | some dnsErr =>
    if dnsErr.IsNotFound then AckCodeNoSuchHost
    else if dnsErr.IsTimeout then AckCodeResolveTimeout
    else opFallthrough
  | none => opFallthrough

/-- Observable actions of `handleConn`, in order: single-byte
acknowledgements written to the tunnel stream, entry into one of the two
proxy loops, and the deferred close of the connection. -/
inductive ServerAction where
  | wroteAck (code : Nat)
  | ranProxyTCP
  | ranProxyUDP
  | closedConn
  deriving Repr, DecidableEq

/-- `handleConn` from `cmd/server/main.go`, as the sequence of observable
actions it performs on one inbound stream.  `input` is the stream's bytes;
`dialErr` is the outcome of `dialer.DialContext` for the decoded destination
(`none` = dial succeeded).  Writes to the connection are modelled as
succeeding; `defer c.Close()` appends the final close on every path. -/
def handleConn (input : List Nat) (dialErr : Option DialError) : List ServerAction :=
  match Header.FromReader input with
  | .error _ => [.closedConn]
  | .ok hdr =>
    (if hdr.Protocol = ProtocolTCP then
      match dialErr with
      | some err => [.wroteAck (ackCodeFromErr err)]
      | none => [.wroteAck AckCodeOK, .ranProxyTCP]
    else if hdr.Protocol = ProtocolUDP then
      match dialErr with
      | some err => [.wroteAck (ackCodeFromErr err)]
      | none => [.wroteAck AckCodeOK, .ranProxyUDP]
    else
      [.wroteAck AckCodeUnknownProtocol]) ++ [.closedConn]

/-! ## UDP length-prefixed framing (`pkg/xnet/udp.go`)

`UDPConn.Read`/`UDPConn.ReadFrom` read one datagram into `buf[2:]` and
store `uint16(n)` big-endian in `buf[:2]`, so the bytes passed on to the
stream are the 2-byte length followed by the payload.
`ReadUDPFromStream` reads the 2-byte length, then exactly that many
payload bytes. -/

/-- The framed bytes produced for one datagram by `UDPConn.Read` /
`UDPConn.ReadFrom`: big-endian `uint16(n)` length prefix, then the payload. -/
def UDPConn.frameDatagram (payload : List Nat) : List Nat :=
  putUint16 (payload.length % 65536) ++ payload

inductive UDPStreamError where
  | shortRead
  deriving Repr, DecidableEq

/-- `ReadUDPFromStream`: returns the decoded payload and the rest of the
stream.  The read deadline is irrelevant to the decoded bytes and is not
modelled. -/
def ReadUDPFromStream (input : List Nat) : Except UDPStreamError (List Nat × List Nat) :=
  match input with
  | b0 :: b1 :: rest =>
    let length := getUint16 b0 b1
    if rest.length < length then .error .shortRead
    else .ok (rest.take length, rest.drop length)
  | _ => .error .shortRead

/-- The byte stream produced by framing a sequence of datagrams in order. -/
def writeUDPFrames (datagrams : List (List Nat)) : List Nat :=
  match datagrams with
  | [] => []
  | d :: rest => UDPConn.frameDatagram d ++ writeUDPFrames rest

/-- Calling `ReadUDPFromStream` `n` times on a stream, collecting the
payloads in order and returning the unread remainder. -/
def readUDPFrames (n : Nat) (input : List Nat) :
    Except UDPStreamError (List (List Nat) × List Nat) :=
  match n with
  | 0 => .ok ([], input)
  | n + 1 =>
    match ReadUDPFromStream input with
    | .error e => .error e
    | .ok (payload, rest) =>
      match readUDPFrames n rest with
      | .error e => .error e
      | .ok (payloads, rest2) => .ok (payload :: payloads, rest2)

/-! ## UDP proxy loop (`pkg/xnet/udp.go`, `ProxyUDP`) and the idle alarm
(`pkg/alarm`)

Each direction of `ProxyUDP` loops: read with a 5-second deadline
(`ReadUDPFromStream(downConn, buf, time.Second*5)` downstream,
`readConnWithTimeout(upConn, buf, time.Second*5)` upstream); on a read
error, continue polling iff it is a timeout and the shared alarm has not
fired, otherwise exit; on success, write the transferred bytes to the
other side (exit on write error) and reset the alarm.

The `alarm.Alarm` runs a timer of its duration `d`; `Reset` restarts the
timer, and `Done` reports whether the timer has fired, i.e. whether `d`
has elapsed since the last reset. -/

/-- The read deadline, in seconds, used by both directions of `ProxyUDP`
(`time.Second * 5` at both read call sites). -/
def proxyUDPReadDeadline : Nat := 5

/-- `const idleTimeout = time.Second * 110` in `ProxyUDP`, in seconds. -/
def idleTimeout : Nat := 110

/-- Outcome of one read attempt inside a `ProxyUDP` direction. -/
inductive UDPReadResult where
  | ok (n : Nat)
  | timeoutErr
  | otherErr
  deriving Repr, DecidableEq

/-- What one loop iteration of a `ProxyUDP` direction decides to do. -/
inductive UDPLoopStep where
  | pollAgain
  | exitLoop
  | forwardAndReset (n : Nat)
  deriving Repr, DecidableEq

/-- One iteration of the downstream-to-upstream goroutine of `ProxyUDP`:
on a read error, continue iff it is a timeout and `!a.Done()`; on a
successful read, exit if the write fails, otherwise forward and `a.Reset()`. -/
def proxyUDPDownstreamIter (r : UDPReadResult) (writeOk alarmDone : Bool) : UDPLoopStep :=
  match r with
  | .ok n => if writeOk then .forwardAndReset n else .exitLoop
  | .timeoutErr => if alarmDone then .exitLoop else .pollAgain
  | .otherErr => .exitLoop

/-- One iteration of the upstream-to-downstream goroutine of `ProxyUDP`;
its body has the same branch structure as the downstream direction. -/
def proxyUDPUpstreamIter (r : UDPReadResult) (writeOk alarmDone : Bool) : UDPLoopStep :=
  match r with
  | .ok n => if writeOk then .forwardAndReset n else .exitLoop
  | .timeoutErr => if alarmDone then .exitLoop else .pollAgain
  | .otherErr => .exitLoop

/-- `alarm.Alarm` state: the alarm of duration `d` has fired iff `d` has
elapsed since its last reset. -/
def Alarm.doneAt (d elapsed : Nat) : Bool := d ≤ elapsed

/-- A `ProxyUDP` direction run under a no-traffic schedule: every read
times out after the full read deadline, so each poll advances the time
since the alarm's last reset by `proxyUDPReadDeadline`, and the iteration
body is consulted with the shared alarm's state at that moment.  Returns
the time (seconds since the alarm's last reset) at which the direction
exits, or `none` if it has not exited within `fuel` polls. -/
def proxyUDPNoTrafficRun (iter : UDPReadResult → Bool → Bool → UDPLoopStep) :
    Nat → Nat → Option Nat
  | 0, _ => none
  | fuel + 1, t =>
    let t2 := t + proxyUDPReadDeadline
    match iter .timeoutErr true (Alarm.doneAt idleTimeout t2) with
    | .pollAgain => proxyUDPNoTrafficRun iter fuel t2
    | .exitLoop => some t2
    | .forwardAndReset _ => none

/-! ## TCP proxy loop (`pkg/xnet/tcp.go`, `ProxyTCP`)

Two `tcpBroker` goroutines copy in opposite directions, each closing its
`srcClosed` channel when its copy completes.  The outer `select` observes
whichever completion signal arrives first and is modelled by which side's
broker completed first; the subsequent calls (`SetLinger(0)`,
`CloseRead()`, and the final wait on the other broker's channel) are the
recorded trace. -/

inductive TCPSide where
  | down
  | up
  deriving Repr, DecidableEq

def TCPSide.other : TCPSide → TCPSide
  | .down => .up
  | .up => .down

inductive TCPAction where
  | setLingerZero (side : TCPSide)
  | closeRead (side : TCPSide)
  | awaitBroker (side : TCPSide)
  deriving Repr, DecidableEq

/-- The trace of `ProxyTCP` after the first broker completes.  In the
`downClosed` branch the code runs `upConn.SetLinger(0)`,
`upConn.CloseRead()`, then waits on `upClosed`; in the `upClosed` branch
it runs `downConn.CloseRead()` then waits on `downClosed`. -/
def ProxyTCP (firstClosed : TCPSide) : List TCPAction :=
  match firstClosed with
  | .down => [.setLingerZero .up, .closeRead .up, .awaitBroker .up]
  | .up => [.closeRead .down, .awaitBroker .down]

/-! ## Client UDP conntrack (`cmd/client/conntrack.go`) and the ingress
step of `portForwarder.run` (`cmd/client/forwarder.go`)

The conntrack map sends `string` source keys to datagram channels;
channels are identified here by `Nat` tokens.  `Get` looks the key up,
`Set` stores (overwriting), `Delete` removes. -/

/-- The `connTrack.items` map, as an association list keyed by the
stringified source address. -/
abbrev ConnTrackMap := List (String × Nat)

/-- Association-list update with Go-map overwrite semantics. -/
def mapInsert (m : ConnTrackMap) (key : String) (v : Nat) : ConnTrackMap :=
  match m with
  | [] => [(key, v)]
  | (k0, v0) :: rest =>
    if k0 == key then (key, v) :: rest else (k0, v0) :: mapInsert rest key v

def connTrack.Get (c : ConnTrackMap) (key : String) : Option Nat :=
  c.lookup key

def connTrack.Set (c : ConnTrackMap) (key : String) (item : Nat) : ConnTrackMap :=
  mapInsert c key item

def connTrack.Delete (c : ConnTrackMap) (key : String) : ConnTrackMap :=
  c.filter (fun kv => !(kv.1 == key))

/-- Observable actions of one ingress iteration of the UDP branch of
`portForwarder.run`. -/
inductive UDPIngressAction where
  | spawnedWorker (ch : Nat)
  | sentToChannel (ch : Nat)
  | droppedDatagram
  deriving Repr, DecidableEq

/-- The body of the UDP accept loop of `portForwarder.run` for one received
datagram: look up the source key; if absent, allocate a channel (`freshCh`),
install it with `track.Set`, then sample `addrGetter.Get()` — on failure the
loop logs and `continue`s (the datagram is dropped and no worker is spawned),
on success a worker is spawned; finally the datagram is sent on the channel.
Returns the updated conntrack map and the actions taken. -/
def portForwarder.runUDPStep (track : ConnTrackMap) (key : String)
    (freshCh : Nat) (resolveOk : Bool) : ConnTrackMap × List UDPIngressAction :=
  match connTrack.Get track key with
  | some v => (track, [.sentToChannel v])
  | none =>
    let track2 := connTrack.Set track key freshCh
    if resolveOk then
      (track2, [.spawnedWorker freshCh, .sentToChannel freshCh])
    else
      (track2, [.droppedDatagram])

/-! ## Port-spec parser (`pkg/ports`)

Go strings are Lean `String`s; slicing and searching is done on the
underlying character lists (`String.data`), which coincides with Go's
byte indexing on the ASCII inputs the grammar deals in. -/

def constants.ProtocolTCP : String := "tcp"
def constants.ProtocolUDP : String := "udp"

/-- `strings.ToLower` (ASCII range suffices for protocol names). -/
def lowerStr (s : String) : String := String.mk (s.data.map Char.toLower)

structure PortPair where
  LocalPort : Nat
  RemotePort : Nat
  Protocol : String
  deriving Repr, DecidableEq

structure portWithProtocol where
  Port : Nat
  Protocol : String
  deriving Repr, DecidableEq

/-- `portsInObject`: Go maps modelled as association lists with overwrite
semantics (`portsInsert`). -/
structure portsInObject where
  Names : List (String × portWithProtocol)
  Protocols : List (Nat × List String)
  deriving Repr, DecidableEq

/-- Association-list update with Go-map overwrite semantics. -/
def portsInsert {α β : Type} [BEq α] (m : List (α × β)) (key : α) (v : β) :
    List (α × β) :=
  match m with
  | [] => [(key, v)]
  | (k0, v0) :: rest =>
    if k0 == key then (key, v) :: rest else (k0, v0) :: portsInsert rest key v

/-- `corev1.ContainerPort`: the fields `getPortsFromPodSpec` reads. -/
structure ContainerPort where
  Name : String
  ContainerPort : Nat
  Protocol : String
  deriving Repr, DecidableEq

structure Container where
  Ports : List ContainerPort
  deriving Repr, DecidableEq

structure PodSpec where
  Containers : List Container
  deriving Repr, DecidableEq

/-- `getPortsFromPodSpec`: collects named ports and, per numeric port, the
list of protocols (lower-cased) in container order. -/
def getPortsFromPodSpec (podSpec : PodSpec) : portsInObject :=
  podSpec.Containers.foldl
    (fun ret ct =>
      ct.Ports.foldl
        (fun ret ctPort =>
          let po := ctPort.ContainerPort
          let proto := lowerStr ctPort.Protocol
          { Names := portsInsert ret.Names ctPort.Name ⟨po, proto⟩
            Protocols := portsInsert ret.Protocols po
              (((ret.Protocols.lookup po).getD []) ++ [proto]) })
        ret)
    ⟨[], []⟩

/-- Failure modes of `Parser.Parse` (the Go code returns formatted errors;
each constructor carries the data the corresponding message interpolates). -/
inductive PortsParseError where
  | unknownProtocol (proto : String)
  | invalidPortFormat (arg : String)
  | invalidPort (s : String)
  | portNameNotFound (name : String)
  | ambiguousProtocol (port : Nat) (protos : List String)
  deriving Repr, DecidableEq

/-- `strconv.ParseUint(s, 10, 16)`: all-decimal-digit, non-empty, value at
most 65535. -/
def parseUintDigits (cs : List Char) (acc : Nat) : Option Nat :=
  match cs with
  | [] => some acc
  | c :: rest =>
    if c.isDigit then parseUintDigits rest (acc * 10 + (c.toNat - 48)) else none

/-- `parsePort` from `pkg/ports`: `strconv.ParseUint(s, 10, 16)` wrapped in
an invalid-port error. -/
def parsePort (s : String) : Except PortsParseError Nat :=
  match s.data with
  | [] => .error (.invalidPort s)
  | cs =>
    match parseUintDigits cs 0 with
    | some n => if n ≤ 65535 then .ok n else .error (.invalidPort s)
    | none => .error (.invalidPort s)

/-- The `@PROTO` suffix handling at the top of the per-argument loop of
`Parser.Parse`: `strings.IndexRune(arg, at)` with the rune only honoured at
a positive index, the protocol validated only when non-empty, and the
argument truncated at the separator.  Returns the protocol (possibly empty)
and the remaining argument characters. -/
def parseProtoSuffix (chars : List Char) :
    Except PortsParseError (String × List Char) :=
  match chars.findIdx? (· == '@') with
  | some i =>
    if i > 0 then
      if i < chars.length - 1 then
        let proto := String.mk (chars.drop (i + 1))
        if proto == constants.ProtocolTCP || proto == constants.ProtocolUDP then
          .ok (proto, chars.take i)
        else
          .error (.unknownProtocol proto)
      else
        .ok ("", chars.take i)
    else
      .ok ("", chars)
  | none => .ok ("", chars)

/-- `strings.Split` on a single-character separator. -/
def splitOnChar (sep : Char) (cs : List Char) : List (List Char) :=
  match cs with
  | [] => [[]]
  | c :: rest =>
    let parts := splitOnChar sep rest
    if c == sep then
      [] :: parts
    else
      match parts with
      | p :: ps => (c :: p) :: ps
      | [] => [[c]]

/-- The body of the per-argument loop of `Parser.Parse` for one port spec. -/
def parseOneArg (allPorts : Option portsInObject) (arg : String) :
    Except PortsParseError PortPair := do
  let (proto, argChars) ← parseProtoSuffix arg.data
  let enforceProtocol := proto != ""
  let (localStr, remoteStr) ←
    match splitOnChar ':' argChars with
    | [r] => Except.ok ("", String.mk r)
    | [l, r] =>
      Except.ok (if l.isEmpty then "0" else String.mk l, String.mk r)
    | _ => Except.error (.invalidPortFormat (String.mk argChars))
  let (remotePort, proto2) ←
    match parsePort remoteStr with
    | .error e =>
      -- assume it is the name of a port
      match allPorts with
      | none => Except.error e
      | some ap =>
        match ap.Names.lookup remoteStr with
        | none => Except.error (.portNameNotFound remoteStr)
        | some port =>
          Except.ok (port.Port, if enforceProtocol then proto else port.Protocol)
    | .ok remotePort =>
      if enforceProtocol then Except.ok (remotePort, proto)
      else
        match allPorts with
        | none => Except.ok (remotePort, proto)
        | some ap =>
          match ap.Protocols.lookup remotePort with
          | some (p0 :: p1 :: rest) =>
            Except.error (.ambiguousProtocol remotePort (p0 :: p1 :: rest))
          | some [p0] => Except.ok (remotePort, p0)
          -- a port present in the table always has at least one protocol
          -- (the Go code indexes protos[0] unconditionally)
          | some [] => Except.ok (remotePort, proto)
          | none => Except.ok (remotePort, proto)
  let proto3 := if proto2 == "" then constants.ProtocolTCP else proto2
  let localPort ←
    if localStr.isEmpty then Except.ok remotePort
    else parsePort localStr
  return ⟨localPort, remotePort, proto3⟩

/-- `Parser` from `pkg/ports`: the argument list and the optional workload
object (represented by the pod spec the port table is derived from). -/
structure Parser where
  args : List String
  obj : Option PodSpec

/-- The argument loop of `Parser.Parse`. -/
def parsePortArgs (allPorts : Option portsInObject) :
    List String → Except PortsParseError (List PortPair)
  | [] => .ok []
  | arg :: rest => do
    let pair ← parseOneArg allPorts arg
    let tail ← parsePortArgs allPorts rest
    return pair :: tail

/-- `Parser.Parse`: derive the port table from the object (when present),
then parse each argument in order. -/
def Parser.Parse (p : Parser) : Except PortsParseError (List PortPair) :=
  parsePortArgs (p.obj.map getPortsFromPodSpec) p.args

/-! ## Targets file parser (`cmd/client/utils.go`, `parseTargetsFile`)

The flag set holds exactly two string flags, `-n` (`--namespace`) and
`-l` (`--address`); `pflag` parsing with interspersed positionals is embedded
directly.  `net.ParseIP` (used only to validate `ip/` resources) is an
external predicate and is passed in as a parameter. -/

inductive TargetsFileError where
  | unknownFlag (tok : String)
  | missingFlagValue (tok : String)
  | invalidSyntax
  | unknownResource (resource : String)
  | invalidIP (s : String)
  deriving Repr, DecidableEq

/-- The classification `pflag` gives one token: `--` ends flag parsing; a
`--name` or `--name=value` long flag and a `-c`, `-c=value` or `-cvalue`
shorthand resolve against the two registered flags (`namespace`/`n` and
`address`/`l`), taking their value from the token or requiring it from the
next one; an unrecognised flag is an error; anything not starting with a
dash (including a bare `-`) is positional. -/
inductive FlagToken where
  | positional
  | terminator
  | withValue (which : Char) (value : String)
  | needsValue (which : Char)
  | unknown
  deriving Repr, DecidableEq

/-- Classify one token the way `pflag` does for this flag set.  Go reports
bad-syntax and unknown-flag cases with distinct messages; both are
`unknown` here. -/
def classifyFlagToken (tok : String) : FlagToken :=
  match tok.data with
  | '-' :: '-' :: nrest =>
    match nrest with
    | [] => .terminator
    | _ :: _ =>
      match nrest.findIdx? (· == '=') with
      | some i =>
        let name := String.mk (nrest.take i)
        let value := String.mk (nrest.drop (i + 1))
        if name == "namespace" then .withValue 'n' value
        else if name == "address" then .withValue 'l' value
        else .unknown
      | none =>
        let name := String.mk nrest
        if name == "namespace" then .needsValue 'n'
        else if name == "address" then .needsValue 'l'
        else .unknown
  | '-' :: c :: brest =>
    if c == 'n' || c == 'l' then
      match brest with
      | [] => .needsValue c
      | '=' :: v0 :: vrest => .withValue c (String.mk (v0 :: vrest))
      | _ => .withValue c (String.mk brest)
    else .unknown
  | _ => .positional

/-- Store a flag value into the pair of bound variables (`-n` sets the
namespace, `-l` the listen address). -/
def applyFlag (ns listenAddr : String) (which : Char) (value : String) :
    String × String :=
  if which == 'n' then (value, listenAddr) else (ns, value)

/-- `pflag` parsing of one line's fields over the two string flags.  State
`(ns, listenAddr)` mirrors the two bound variables; returns the final state
and the positional arguments in order (interspersed parsing). -/
def parseFlagTokens (ns listenAddr : String) :
    List String → Except TargetsFileError (String × String × List String)
  | [] => .ok (ns, listenAddr, [])
  | tok :: rest =>
    match classifyFlagToken tok with
    | .terminator => .ok (ns, listenAddr, rest)
    | .unknown => .error (.unknownFlag tok)
    | .withValue which value =>
      let s2 := applyFlag ns listenAddr which value
      parseFlagTokens s2.1 s2.2 rest
    | .needsValue which =>
      match rest with
      | v :: rest2 =>
        let s2 := applyFlag ns listenAddr which v
        parseFlagTokens s2.1 s2.2 rest2
      | [] => .error (.missingFlagValue tok)
    | .positional => do
      let (ns2, la2, pos) ← parseFlagTokens ns listenAddr rest
      return (ns2, la2, tok :: pos)
termination_by toks => toks.length
decreasing_by all_goals simp_wf <;> omega

/-- `strings.Fields`: split on runs of whitespace. -/
def fieldsAux : List Char → List Char → List String
  | [], acc => if acc.isEmpty then [] else [String.mk acc.reverse]
  | c :: rest, acc =>
    if c.isWhitespace then
      if acc.isEmpty then fieldsAux rest []
      else String.mk acc.reverse :: fieldsAux rest []
    else fieldsAux rest (c :: acc)

/-- `strings.TrimSpace`. -/
def trimChars (cs : List Char) : List Char :=
  ((cs.dropWhile Char.isWhitespace).reverse.dropWhile Char.isWhitespace).reverse

/-- A line skipped by `parseTargetsFile`: blank after trimming, or starting
with a comment marker. -/
def isSkippedLine (cs : List Char) : Bool :=
  match cs with
  | [] => true
  | '/' :: '/' :: _ => true
  | '#' :: _ => true
  | _ => false

/-- `validateFields` from `cmd/client/utils.go`: at least two fields, the
resource has at most one slash, and an `ip/` resource must carry a valid IP
literal.  (A bare `ip` resource without a slash makes the Go code index past
the split result; it is modelled as validating the empty string, which no
`isValidIP` oracle derived from `net.ParseIP` accepts.) -/
def validateFields (isValidIP : String → Bool) (fields : List String) :
    Except TargetsFileError Unit :=
  match fields with
  | [] => .error .invalidSyntax
  | [_] => .error .invalidSyntax
  | f0 :: _ :: _ =>
    let resourceParts := splitOnChar '/' f0.data
    if resourceParts.length > 2 then .error (.unknownResource f0)
    else
      match resourceParts with
      | r0 :: restParts =>
        if String.mk r0 == "ip" then
          let ipStr := String.mk (restParts.headD [])
          if isValidIP ipStr then .ok () else .error (.invalidIP ipStr)
        else .ok ()
      | [] => .ok ()

/-- The `target` struct (field `namespace` is `ns` here; `namespace` is a
Lean keyword). -/
structure target where
  resource : String
  ports : List String
  ns : String
  lisAddr : String
  deriving Repr, DecidableEq

def defaultListenAddr : String := "127.0.0.1"

/-- The scanner loop of `parseTargetsFile`.  `ns` and `listenAddr` carry the
two flag-bound variables across iterations, exactly as the Go locals do;
both are reset to their defaults before each non-skipped line is parsed. -/
def parseTargetsFileLoop (isValidIP : String → Bool) (defaultNamespace : String)
    (ns listenAddr : String) : List String → Except TargetsFileError (List target)
  | [] => .ok []
  | rawLine :: rest =>
    let lineChars := trimChars rawLine.data
    if isSkippedLine lineChars then
      parseTargetsFileLoop isValidIP defaultNamespace ns listenAddr rest
    else
      -- we need to reset the state before parsing the next line
      match parseFlagTokens defaultNamespace defaultListenAddr (fieldsAux lineChars []) with
      | .error e => .error e
      | .ok (ns2, la2, remain) =>
        match validateFields isValidIP remain with
        | .error e => .error e
        | .ok _ =>
          match remain with
          | r0 :: ps =>
            match parseTargetsFileLoop isValidIP defaultNamespace ns2 la2 rest with
            | .error e => .error e
            | .ok tail => .ok (⟨r0, ps, ns2, la2⟩ :: tail)
          | [] => .error .invalidSyntax

/-- `parseTargetsFile`: the reader's lines fed through the scanner loop with
the flag variables initialised to their defaults. -/
def parseTargetsFile (isValidIP : String → Bool) (lines : List String)
    (defaultNamespace : String) : Except TargetsFileError (List target) :=
  parseTargetsFileLoop isValidIP defaultNamespace defaultNamespace defaultListenAddr lines

/-- Parsing a single line in isolation, always starting from the default
flag state: `none` when the line is skipped.  Used to state that the loop's
carried flag state cannot influence any line's target. -/
def parseTargetLine (isValidIP : String → Bool) (defaultNamespace : String)
    (rawLine : String) : Except TargetsFileError (Option target) :=
  let lineChars := trimChars rawLine.data
  if isSkippedLine lineChars then .ok none
  else
    match parseFlagTokens defaultNamespace defaultListenAddr (fieldsAux lineChars []) with
    | .error e => .error e
    | .ok (ns2, la2, remain) =>
      match validateFields isValidIP remain with
      | .error e => .error e
      | .ok _ =>
        match remain with
        | r0 :: ps => .ok (some ⟨r0, ps, ns2, la2⟩)
        | [] => .error .invalidSyntax

/-- The per-line restatement of `parseTargetsFile`: every line parsed
independently with the default flag state. -/
def parseTargetsFileByLine (isValidIP : String → Bool) (lines : List String)
    (defaultNamespace : String) : Except TargetsFileError (List target) :=
  match lines with
  | [] => .ok []
  | l :: rest =>
    match parseTargetLine isValidIP defaultNamespace l with
    | .error e => .error e
    | .ok t? =>
      match parseTargetsFileByLine isValidIP rest defaultNamespace with
      | .error e => .error e
      | .ok tail =>
        .ok (match t? with | some t => t :: tail | none => tail)

/-- A field list that sets no flags: no token begins with a dash. -/
def noDashToken (fs : List String) : Bool :=
  fs.all (fun f =>
    match f.data with
    | '-' :: _ => false
    | _ => true)

/-! ## Theorems -/

/-- Decoding a complete wire image: a version byte, the two big-endian bytes
of `12 + len(payload)`, the nine fixed body bytes and the payload (plus any
trailing stream bytes) decode to the corresponding header. -/
theorem FromReader_complete (version r0 r1 r2 r3 r4 proto p0 p1 addrType : Nat)
    (payload extra : List Nat) (hL : payload.length ≤ 65523) :
    Header.FromReader (version :: ((12 + payload.length) / 256 % 256)
      :: ((12 + payload.length) % 256) :: r0 :: r1 :: r2 :: r3 :: r4
      :: proto :: p0 :: p1 :: addrType :: (payload ++ extra))
    = .ok ⟨version, [r0, r1, r2, r3, r4], proto, getUint16 p0 p1,
        AddrFromBytes addrType payload⟩ := by
  have hget : getUint16 ((12 + payload.length) / 256 % 256)
      ((12 + payload.length) % 256) = 12 + payload.length :=
    getUint16_putUint16 _ (by omega)
  have hrest : (r0 :: r1 :: r2 :: r3 :: r4 :: proto :: p0 :: p1 :: addrType
      :: (payload ++ extra)).length = 9 + payload.length + extra.length := by
    simp
    omega
  simp only [Header.FromReader, hget, hrest]
  rw [if_neg (by unfold lengthAllMandatoryFields; omega),
    if_neg (by omega)]
  have hassoc : r0 :: r1 :: r2 :: r3 :: r4 :: proto :: p0 :: p1 :: addrType
      :: (payload ++ extra)
      = ([r0, r1, r2, r3, r4, proto, p0, p1, addrType] ++ payload) ++ extra := by
    simp
  rw [hassoc, List.take_left' (by simp; omega)]
  simp [AddrFromBytes]

/-- C1.  For every Header whose request ID is exactly 5 bytes and whose
address is a valid variant (4-byte IPv4, 16-byte IPv6, or a host of length
0 to 255), decoding the bytes produced by `Header.Marshal` via
`Header.FromReader` yields the same header: version, request ID, protocol,
port, address type and address payload all round-trip.  (`Port < 65536`
states the Go `uint16` typing of the field.) -/
theorem header_roundtrip (h : Header)
    (hid : h.RequestID.length = lengthRequestID)
    (hvalid : ValidAddrVariant h.Addr)
    (hport : h.Port < 65536) :
    Header.FromReader h.Marshal = .ok h := by
  have hlen : h.Addr.data.length ≤ 255 := by
    rcases hvalid with ⟨_, h4 | h16⟩ | ⟨_, hh⟩ <;> omega
  obtain ⟨a, b, c, d, e, hreq⟩ : ∃ a b c d e, h.RequestID = [a, b, c, d, e] := by
    rcases hR : h.RequestID with _ | ⟨a, t⟩
    · rw [hR] at hid; simp [lengthRequestID] at hid
    rcases t with _ | ⟨b, t⟩
    · rw [hR] at hid; simp [lengthRequestID] at hid
    rcases t with _ | ⟨c, t⟩
    · rw [hR] at hid; simp [lengthRequestID] at hid
    rcases t with _ | ⟨d, t⟩
    · rw [hR] at hid; simp [lengthRequestID] at hid
    rcases t with _ | ⟨e, t⟩
    · rw [hR] at hid; simp [lengthRequestID] at hid
    rcases t with _ | ⟨f, t⟩
    · exact ⟨a, b, c, d, e, rfl⟩
    · rw [hR] at hid; simp [lengthRequestID] at hid
  have hmarshal : h.Marshal
      = h.Version :: ((12 + h.Addr.data.length) / 256 % 256)
        :: ((12 + h.Addr.data.length) % 256)
        :: a :: b :: c :: d :: e :: h.Protocol
        :: (h.Port / 256 % 256) :: (h.Port % 256)
        :: h.Addr.typ :: (h.Addr.data ++ []) := by
    have htl : (lengthAllMandatoryFields + h.Addr.data.length) % 65536
        = 12 + h.Addr.data.length := by
      unfold lengthAllMandatoryFields
      omega
    simp [Header.Marshal, Addr.Marshal, putUint16, hreq, htl, lengthRequestID]
  rw [hmarshal, FromReader_complete _ _ _ _ _ _ _ _ _ _ _ _ (by omega),
    getUint16_putUint16 _ hport, ← hreq]
  rfl

/-- Closed instance of C1: a Host-addressed header with a 5-byte request ID
round-trips. -/
theorem header_roundtrip_witness :
    Header.FromReader
      (Header.Marshal ⟨0, [97, 98, 99, 100, 101], 0, 80, ⟨1, [97, 46, 99, 111, 109]⟩⟩)
      = .ok ⟨0, [97, 98, 99, 100, 101], 0, 80, ⟨1, [97, 46, 99, 111, 109]⟩⟩ :=
  header_roundtrip _ (by decide) (Or.inr ⟨rfl, by decide⟩) (by decide)

/-- C2.  `Header.FromReader` fails with the truncated-header (body too
short) error for every input whose 2-byte total-length field is below 12
(in particular 11); it accepts every header image whose total-length field
lies in [12, 12+255] (parametrised here by the payload length 0 to 255);
and a header with address type 1 (Host) and empty payload (total = 12)
decodes successfully with an address satisfying `IsZero`. -/
theorem header_decode_boundaries :
    (∀ (b0 b1 b2 : Nat) (rest : List Nat), getUint16 b1 b2 < 12 →
      Header.FromReader (b0 :: b1 :: b2 :: rest)
        = .error (.bodyTooShort (getUint16 b1 b2)))
  ∧ (∀ (version r0 r1 r2 r3 r4 proto p0 p1 addrType : Nat) (payload : List Nat),
      payload.length ≤ 255 →
      Header.FromReader ([version] ++ putUint16 (12 + payload.length)
          ++ [r0, r1, r2, r3, r4, proto, p0, p1, addrType] ++ payload)
        = .ok ⟨version, [r0, r1, r2, r3, r4], proto, getUint16 p0 p1,
            AddrFromBytes addrType payload⟩)
  ∧ (∀ (version r0 r1 r2 r3 r4 proto p0 p1 : Nat),
      ∃ hdr, Header.FromReader ([version] ++ putUint16 12
          ++ [r0, r1, r2, r3, r4, proto, p0, p1, AddrTypeHost]) = .ok hdr
        ∧ hdr.Addr.IsZero = true ∧ hdr.Addr.typ = AddrTypeHost) := by
  refine ⟨?_, ?_, ?_⟩
  · intro b0 b1 b2 rest hlt
    simp only [Header.FromReader]
    rw [if_pos (by unfold lengthAllMandatoryFields; omega)]
  · intro version r0 r1 r2 r3 r4 proto p0 p1 addrType payload hlen
    have hshape : [version] ++ putUint16 (12 + payload.length)
        ++ [r0, r1, r2, r3, r4, proto, p0, p1, addrType] ++ payload
        = version :: ((12 + payload.length) / 256 % 256)
          :: ((12 + payload.length) % 256) :: r0 :: r1 :: r2 :: r3 :: r4
          :: proto :: p0 :: p1 :: addrType :: (payload ++ []) := by
      simp [putUint16]
    rw [hshape]
    exact FromReader_complete _ _ _ _ _ _ _ _ _ _ _ _ (by omega)
  · intro version r0 r1 r2 r3 r4 proto p0 p1
    refine ⟨⟨version, [r0, r1, r2, r3, r4], proto, getUint16 p0 p1,
      AddrFromBytes AddrTypeHost []⟩, ?_, rfl, rfl⟩
    have hshape : [version] ++ putUint16 12
        ++ [r0, r1, r2, r3, r4, proto, p0, p1, AddrTypeHost]
        = version :: ((12 + ([] : List Nat).length) / 256 % 256)
          :: ((12 + ([] : List Nat).length) % 256) :: r0 :: r1 :: r2 :: r3 :: r4
          :: proto :: p0 :: p1 :: AddrTypeHost :: (([] : List Nat) ++ []) := by
      simp [putUint16]
    rw [hshape]
    exact FromReader_complete _ _ _ _ _ _ _ _ _ _ _ _ (by simp)

/-- Closed instance of C2: total-length 11 is rejected as body-too-short,
and the 12-byte Host header with empty payload decodes with a zero address. -/
theorem header_decode_boundaries_witness :
    Header.FromReader (0 :: 0 :: 11 :: [])
      = .error (.bodyTooShort (getUint16 0 11))
  ∧ (∃ hdr, Header.FromReader ([0] ++ putUint16 12
        ++ [1, 2, 3, 4, 5, 0, 0, 53, AddrTypeHost]) = .ok hdr
      ∧ hdr.Addr.IsZero = true ∧ hdr.Addr.typ = AddrTypeHost) :=
  ⟨header_decode_boundaries.1 0 0 11 [] (by decide),
    header_decode_boundaries.2.2 0 1 2 3 4 5 0 0 53⟩

/-- C3.  For every dispatcher dial attempt (TCP or UDP protocol byte): on
dial failure the single acknowledgement byte is 3 for a DNS not-found
error, 4 for a DNS timeout, 5 for a dial/op timeout (no DNS flag set), and
2 for anything else, after which the connection is closed with no proxy
loop run; on dial success, acknowledgement 1 (OK) is written before the
proxy loop starts. -/
theorem dispatcher_ack_mapping :
    (∀ (err : DialError) (dns : DNSError), err.dnsErr = some dns →
      dns.IsNotFound = true → ackCodeFromErr err = AckCodeNoSuchHost)
  ∧ (∀ (err : DialError) (dns : DNSError), err.dnsErr = some dns →
      dns.IsNotFound = false → dns.IsTimeout = true →
      ackCodeFromErr err = AckCodeResolveTimeout)
  ∧ (∀ (err : DialError) (op : OpError),
      (err.dnsErr = none ∨ err.dnsErr = some ⟨false, false⟩) →
      err.opErr = some op → op.Timeout = true →
      ackCodeFromErr err = AckCodeConnectTimeout)
  ∧ (∀ (err : DialError),
      (err.dnsErr = none ∨ err.dnsErr = some ⟨false, false⟩) →
      (∀ op, err.opErr = some op → op.Timeout = false) →
      ackCodeFromErr err = AckCodeUnknownError)
  ∧ (∀ (input : List Nat) (hdr : Header) (err : DialError),
      Header.FromReader input = .ok hdr →
      (hdr.Protocol = ProtocolTCP ∨ hdr.Protocol = ProtocolUDP) →
      handleConn input (some err) = [.wroteAck (ackCodeFromErr err), .closedConn])
  ∧ (∀ (input : List Nat) (hdr : Header),
      Header.FromReader input = .ok hdr → hdr.Protocol = ProtocolTCP →
      handleConn input none = [.wroteAck AckCodeOK, .ranProxyTCP, .closedConn])
  ∧ (∀ (input : List Nat) (hdr : Header),
      Header.FromReader input = .ok hdr → hdr.Protocol = ProtocolUDP →
      handleConn input none = [.wroteAck AckCodeOK, .ranProxyUDP, .closedConn]) := by
  refine ⟨?_, ?_, ?_, ?_, ?_, ?_, ?_⟩
  · intro err dns hdns hnf
    simp [ackCodeFromErr, hdns, hnf]
  · intro err dns hdns hnf htmo
    simp [ackCodeFromErr, hdns, hnf, htmo]
  · intro err op hdns hop htmo
    rcases hdns with hdns | hdns <;> simp [ackCodeFromErr, hdns, hop, htmo]
  · intro err hdns hop
    rcases hdns with hdns | hdns <;>
      rcases hopE : err.opErr with _ | op <;>
        simp_all [ackCodeFromErr]
  · intro input hdr err hdec hproto
    rcases hproto with hp | hp <;>
      simp [handleConn, hdec, hp, ProtocolTCP, ProtocolUDP]
  · intro input hdr hdec hp
    simp [handleConn, hdec, hp, ProtocolTCP]
  · intro input hdr hdec hp
    simp [handleConn, hdec, hp, ProtocolTCP, ProtocolUDP]

/-- Closed instances of C3: each row of the acknowledgement table, and one
complete TCP dispatch with a failing and a succeeding dial. -/
theorem dispatcher_ack_mapping_witness :
    ackCodeFromErr ⟨some ⟨true, false⟩, none⟩ = AckCodeNoSuchHost
  ∧ ackCodeFromErr ⟨some ⟨false, true⟩, none⟩ = AckCodeResolveTimeout
  ∧ ackCodeFromErr ⟨none, some ⟨true⟩⟩ = AckCodeConnectTimeout
  ∧ ackCodeFromErr ⟨none, none⟩ = AckCodeUnknownError
  ∧ handleConn ([0] ++ putUint16 12 ++ [1, 2, 3, 4, 5, ProtocolTCP, 0, 80, 0])
      (some ⟨some ⟨true, false⟩, none⟩)
      = [.wroteAck (ackCodeFromErr ⟨some ⟨true, false⟩, none⟩), .closedConn]
  ∧ handleConn ([0] ++ putUint16 12 ++ [1, 2, 3, 4, 5, ProtocolTCP, 0, 80, 0]) none
      = [.wroteAck AckCodeOK, .ranProxyTCP, .closedConn] :=
  ⟨dispatcher_ack_mapping.1 ⟨some ⟨true, false⟩, none⟩ ⟨true, false⟩ rfl rfl,
    dispatcher_ack_mapping.2.1 ⟨some ⟨false, true⟩, none⟩ ⟨false, true⟩ rfl rfl rfl,
    dispatcher_ack_mapping.2.2.1 ⟨none, some ⟨true⟩⟩ ⟨true⟩ (Or.inl rfl) rfl rfl,
    dispatcher_ack_mapping.2.2.2.1 ⟨none, none⟩ (Or.inl rfl)
      (by intro op hop; cases hop),
    dispatcher_ack_mapping.2.2.2.2.1 _
      ⟨0, [1, 2, 3, 4, 5], ProtocolTCP, getUint16 0 80, AddrFromBytes 0 []⟩
      ⟨some ⟨true, false⟩, none⟩ rfl (Or.inl rfl),
    dispatcher_ack_mapping.2.2.2.2.2.1 _
      ⟨0, [1, 2, 3, 4, 5], ProtocolTCP, getUint16 0 80, AddrFromBytes 0 []⟩
      rfl rfl⟩

/-- C4.  For every inbound stream whose decoded header carries a protocol
byte that is neither 0 (TCP) nor 1 (UDP), the dispatcher writes the single
acknowledgement byte 6 (Unknown protocol), runs no proxy loop, and closes
the stream. -/
theorem dispatcher_unknown_protocol
    (input : List Nat) (hdr : Header) (dialErr : Option DialError)
    (hdec : Header.FromReader input = .ok hdr)
    (hnt : hdr.Protocol ≠ ProtocolTCP) (hnu : hdr.Protocol ≠ ProtocolUDP) :
    handleConn input dialErr = [.wroteAck AckCodeUnknownProtocol, .closedConn]
    ∧ .ranProxyTCP ∉ handleConn input dialErr
    ∧ .ranProxyUDP ∉ handleConn input dialErr := by
  have hmain : handleConn input dialErr
      = [.wroteAck AckCodeUnknownProtocol, .closedConn] := by
    simp [handleConn, hdec, hnt, hnu]
  refine ⟨hmain, ?_, ?_⟩ <;> rw [hmain] <;> simp

/-- Closed instance of C4: protocol byte 7 is acknowledged with code 6 and
no proxy loop runs. -/
theorem dispatcher_unknown_protocol_witness :
    handleConn ([0] ++ putUint16 12 ++ [1, 2, 3, 4, 5, 7, 0, 80, 0]) none
      = [.wroteAck AckCodeUnknownProtocol, .closedConn]
    ∧ .ranProxyTCP ∉ handleConn ([0] ++ putUint16 12 ++ [1, 2, 3, 4, 5, 7, 0, 80, 0]) none
    ∧ .ranProxyUDP ∉ handleConn ([0] ++ putUint16 12 ++ [1, 2, 3, 4, 5, 7, 0, 80, 0]) none :=
  dispatcher_unknown_protocol _
    ⟨0, [1, 2, 3, 4, 5], 7, getUint16 0 80, AddrFromBytes 0 []⟩ none
    rfl (by decide) (by decide)

/-- Reading framed datagrams off a stream with a trailing remainder
recovers the datagrams and leaves the remainder. -/
theorem readUDPFrames_writeUDPFrames (datagrams : List (List Nat))
    (rest : List Nat) (hs : ∀ d ∈ datagrams, d.length ≤ 65535) :
    readUDPFrames datagrams.length (writeUDPFrames datagrams ++ rest)
      = .ok (datagrams, rest) := by
  induction datagrams generalizing rest with
  | nil => rfl
  | cons d ds ih =>
    have hd : d.length ≤ 65535 := hs d (List.mem_cons_self d ds)
    have hmod : d.length % 65536 = d.length := Nat.mod_eq_of_lt (by omega)
    have hget : getUint16 (d.length % 65536 / 256 % 256) (d.length % 65536 % 256)
        = d.length := by
      rw [hmod]
      exact getUint16_putUint16 _ (by omega)
    have hshape : writeUDPFrames (d :: ds) ++ rest
        = (d.length % 65536 / 256 % 256) :: (d.length % 65536 % 256)
          :: (d ++ (writeUDPFrames ds ++ rest)) := by
      simp [writeUDPFrames, UDPConn.frameDatagram, putUint16]
    rw [List.length_cons, hshape]
    simp only [readUDPFrames, ReadUDPFromStream, hget]
    rw [if_neg (by simp), List.take_left' rfl, List.drop_left]
    dsimp only
    rw [ih rest (fun x hx => hs x (List.mem_cons_of_mem d hx))]

/-- C5.  Framing N datagrams of payload size at most 65535 each as a
2-byte big-endian length followed by the payload (as `UDPConn.Read` /
`UDPConn.ReadFrom` produce) and calling `ReadUDPFromStream` N times on the
concatenation returns exactly the original N payloads, in order, consuming
the whole stream. -/
theorem udp_framing_roundtrip (datagrams : List (List Nat))
    (hs : ∀ d ∈ datagrams, d.length ≤ 65535) :
    readUDPFrames datagrams.length (writeUDPFrames datagrams)
      = .ok (datagrams, []) := by
  have := readUDPFrames_writeUDPFrames datagrams [] hs
  simpa using this

/-- Closed instance of C5: three datagrams (one empty, one of size 3, one
of size 1) round-trip through the framing. -/
theorem udp_framing_roundtrip_witness :
    readUDPFrames 3 (writeUDPFrames [[1, 2, 3], [], [255]])
      = .ok ([[1, 2, 3], [], [255]], []) :=
  udp_framing_roundtrip [[1, 2, 3], [], [255]] (by decide)

/-- C6.  Both directions of the UDP proxy loop read with a 5-second
deadline and share the single 110-second idle alarm, which is reset on
every successful transfer; an iteration that hits a read timeout while the
alarm has not fired polls again, a read timeout after the alarm has fired
exits, and consequently a flow with no traffic terminates in both
directions once the idle period elapses (22 polls of 5 seconds reach the
110-second alarm, at which point both directions exit). -/
theorem proxy_udp_idle_expiry :
    (proxyUDPReadDeadline = 5 ∧ idleTimeout = 110)
  ∧ (∀ w : Bool, proxyUDPDownstreamIter .timeoutErr w false = .pollAgain
      ∧ proxyUDPUpstreamIter .timeoutErr w false = .pollAgain)
  ∧ (∀ w : Bool, proxyUDPDownstreamIter .timeoutErr w true = .exitLoop
      ∧ proxyUDPUpstreamIter .timeoutErr w true = .exitLoop)
  ∧ (∀ (n : Nat) (d : Bool), proxyUDPDownstreamIter (.ok n) true d = .forwardAndReset n
      ∧ proxyUDPUpstreamIter (.ok n) true d = .forwardAndReset n)
  ∧ proxyUDPNoTrafficRun proxyUDPDownstreamIter 22 0 = some 110
  ∧ proxyUDPNoTrafficRun proxyUDPUpstreamIter 22 0 = some 110 := by
  refine ⟨⟨rfl, rfl⟩, ?_, ?_, ?_, ?_, ?_⟩
  · intro w
    exact ⟨rfl, rfl⟩
  · intro w
    exact ⟨rfl, rfl⟩
  · intro n d
    exact ⟨rfl, rfl⟩
  · decide
  · decide

/-- The trailing key-lookup fact for the amended C7: an overwriting insert
is observed by a subsequent lookup of the same key. -/
theorem connTrack_Get_Set (track : ConnTrackMap) (key : String) (v : Nat) :
    connTrack.Get (connTrack.Set track key v) key = some v := by
  induction track with
  | nil =>
    simp [connTrack.Get, connTrack.Set, mapInsert, List.lookup]
  | cons kv rest ih =>
    obtain ⟨k0, v0⟩ := kv
    unfold connTrack.Set mapInsert
    by_cases hk : (k0 == key) = true
    · rw [if_pos hk]
      simp [connTrack.Get, List.lookup]
    · rw [if_neg hk]
      have hne : k0 ≠ key := by
        intro h
        exact hk (by simp [h])
      have hk2 : (key == k0) = false :=
        beq_eq_false_iff_ne.mpr (fun h => hne h.symm)
      simp only [connTrack.Get, List.lookup, hk2]
      simpa [connTrack.Get, connTrack.Set] using ih

/-- Counterexample to C7 as stated: on the first datagram from an unknown
source with a failing resolver, the channel has already been installed in
the conntrack map and remains there, so a subsequent lookup of the same
source finds it (it is not treated as a new source). -/
theorem udp_ingress_installs_channel_cex :
    portForwarder.runUDPStep [] "127.0.0.1:40000" 7 false
      = ([("127.0.0.1:40000", 7)], [.droppedDatagram])
    ∧ connTrack.Get [("127.0.0.1:40000", 7)] "127.0.0.1:40000" = some 7 := by
  constructor
  · rfl
  · rfl

/-- Amended C7.  When the forwarder receives the first datagram from a
source not in conntrack and the resolver fails, the datagram is dropped and
no worker is spawned, but the freshly allocated channel has already been
installed with `track.Set` and is not removed, so the next datagram from
the same source finds the stale channel instead of being treated as a new
source. -/
theorem udp_ingress_resolver_failure (track : ConnTrackMap) (key : String)
    (freshCh : Nat) (habsent : connTrack.Get track key = none) :
    portForwarder.runUDPStep track key freshCh false
      = (connTrack.Set track key freshCh, [.droppedDatagram])
    ∧ connTrack.Get (connTrack.Set track key freshCh) key = some freshCh := by
  refine ⟨?_, connTrack_Get_Set track key freshCh⟩
  simp [portForwarder.runUDPStep, habsent]

/-- Closed instance of the amended C7. -/
theorem udp_ingress_resolver_failure_witness :
    portForwarder.runUDPStep [("10.0.0.9:5000", 3)] "127.0.0.1:40000" 7 false
      = (connTrack.Set [("10.0.0.9:5000", 3)] "127.0.0.1:40000" 7, [.droppedDatagram])
    ∧ connTrack.Get (connTrack.Set [("10.0.0.9:5000", 3)] "127.0.0.1:40000" 7)
        "127.0.0.1:40000" = some 7 :=
  udp_ingress_resolver_failure [("10.0.0.9:5000", 3)] "127.0.0.1:40000" 7 (by decide)

/-- C8.  `ProxyTCP` returns only after both copy directions have completed:
whichever broker signals first, the trace ends by awaiting the other
broker, `CloseRead` is invoked on the other endpoint (unblocking the
remaining broker) before that wait, and exactly in the downstream-first
case `SetLinger(0)` is additionally applied to the upstream connection. -/
theorem proxy_tcp_half_close (s : TCPSide) :
    (ProxyTCP s).getLast? = some (.awaitBroker s.other)
    ∧ .closeRead s.other ∈ ProxyTCP s
    ∧ (ProxyTCP s).indexOf (.closeRead s.other)
        < (ProxyTCP s).indexOf (.awaitBroker s.other)
    ∧ (.setLingerZero .up ∈ ProxyTCP s ↔ s = .down)
    ∧ .awaitBroker s ∉ ProxyTCP s := by
  cases s <;> refine ⟨rfl, ?_, ?_, ?_, ?_⟩ <;> decide



theorem ebind_ok {e a b : Type} (v : a) (f : a → Except e b) :
    (Except.ok v >>= f) = f v := rfl

theorem ebind_err {e a b : Type} (x : e) (f : a → Except e b) :
    ((Except.error x : Except e a) >>= f) = Except.error x := rfl

theorem parseOneArg_bare53 (ap : portsInObject) :
    parseOneArg (some ap) "53"
      = match ap.Protocols.lookup 53 with
        | some (p0 :: p1 :: rest) => .error (.ambiguousProtocol 53 (p0 :: p1 :: rest))
        | some [p0] => .ok ⟨53, 53, if p0 == "" then constants.ProtocolTCP else p0⟩
        | some [] => .ok ⟨53, 53, constants.ProtocolTCP⟩
        | none => .ok ⟨53, 53, constants.ProtocolTCP⟩ := by
  unfold parseOneArg
  simp only [show parseProtoSuffix "53".data = Except.ok ("", ['5', '3']) from rfl,
    ebind_ok, show splitOnChar ':' ['5', '3'] = [['5', '3']] from rfl,
    show parsePort (String.mk ['5', '3']) = Except.ok 53 from rfl,
    show (("" : String) != "") = false from rfl,
    show ("" : String).isEmpty = true from rfl]
  rw [if_neg (show ¬ (false = true) by simp)]
  cases hlook : List.lookup 53 ap.Protocols with
  | none => simp [pure, Except.pure]
  | some l =>
    rcases l with _ | ⟨p0, _ | ⟨p1, rest⟩⟩
    · simp [pure, Except.pure]
    · simp [pure, Except.pure]
    · simp [ebind_err]

/-- C9.  The port-spec parser resolves `:53@udp` to LocalPort 0,
RemotePort 53, protocol udp; a bare numeric spec `53` against a workload
whose port table lists 53 under exactly one protocol infers that protocol;
and against a workload listing 53 under two protocols it fails with the
ambiguity error. -/
theorem port_spec_parsing :
    Parser.Parse ⟨[":53@udp"], none⟩ = .ok [⟨0, 53, "udp"⟩]
  ∧ (∀ (ps : PodSpec) (proto : String),
      (getPortsFromPodSpec ps).Protocols.lookup 53 = some [proto] → proto ≠ "" →
      Parser.Parse ⟨["53"], some ps⟩ = .ok [⟨53, 53, proto⟩])
  ∧ (∀ (ps : PodSpec) (p0 p1 : String) (protos : List String),
      (getPortsFromPodSpec ps).Protocols.lookup 53 = some (p0 :: p1 :: protos) →
      Parser.Parse ⟨["53"], some ps⟩
        = .error (.ambiguousProtocol 53 (p0 :: p1 :: protos))) := by
  refine ⟨rfl, ?_, ?_⟩
  · intro ps proto hlook hne
    have hone : parseOneArg (some (getPortsFromPodSpec ps)) "53"
        = .ok ⟨53, 53, proto⟩ := by
      rw [parseOneArg_bare53, hlook]
      simp [beq_eq_false_iff_ne.mpr hne]
    show (parseOneArg (some (getPortsFromPodSpec ps)) "53" >>= fun pair =>
      parsePortArgs (some (getPortsFromPodSpec ps)) [] >>= fun tail =>
        pure (pair :: tail)) = .ok [⟨53, 53, proto⟩]
    rw [hone, ebind_ok]
    rfl
  · intro ps p0 p1 protos hlook
    have hone : parseOneArg (some (getPortsFromPodSpec ps)) "53"
        = .error (.ambiguousProtocol 53 (p0 :: p1 :: protos)) := by
      rw [parseOneArg_bare53, hlook]
    show (parseOneArg (some (getPortsFromPodSpec ps)) "53" >>= fun pair =>
      parsePortArgs (some (getPortsFromPodSpec ps)) [] >>= fun tail =>
        pure (pair :: tail)) = .error (.ambiguousProtocol 53 (p0 :: p1 :: protos))
    rw [hone, ebind_err]

/-- Closed instances of C9: a workload exposing only 53 over UDP infers
udp for the bare spec `53`; a workload exposing 53 over both TCP and UDP
is rejected as ambiguous. -/
theorem port_spec_parsing_witness :
    Parser.Parse ⟨["53"], some ⟨[⟨[⟨"dns", 53, "UDP"⟩]⟩]⟩⟩ = .ok [⟨53, 53, "udp"⟩]
  ∧ Parser.Parse ⟨["53"], some ⟨[⟨[⟨"t", 53, "TCP"⟩, ⟨"u", 53, "UDP"⟩]⟩]⟩⟩
      = .error (.ambiguousProtocol 53 ["tcp", "udp"]) :=
  ⟨port_spec_parsing.2.1 ⟨[⟨[⟨"dns", 53, "UDP"⟩]⟩]⟩ "udp" rfl (by decide),
    port_spec_parsing.2.2 ⟨[⟨[⟨"t", 53, "TCP"⟩, ⟨"u", 53, "UDP"⟩]⟩]⟩ "tcp" "udp" [] rfl⟩

/-- The scanner loop's carried flag state never influences the result:
both flag variables are reset before each parsed line. -/
theorem parseTargetsFileLoop_stateless (o : String → Bool) (d : String)
    (lines : List String) : ∀ ns la,
    parseTargetsFileLoop o d ns la lines = parseTargetsFileByLine o lines d := by
  induction lines with
  | nil =>
    intro ns la
    rfl
  | cons rawLine rest ih =>
    intro ns la
    simp only [parseTargetsFileLoop, parseTargetsFileByLine, parseTargetLine]
    by_cases hskip : isSkippedLine (trimChars rawLine.data) = true
    · simp only [hskip, if_true]
      rw [ih ns la]
      cases hrest : parseTargetsFileByLine o rest d <;> simp [ebind_ok]
    · simp only [hskip, if_false, Bool.false_eq_true]
      cases hpf : parseFlagTokens d defaultListenAddr
          (fieldsAux (trimChars rawLine.data) []) with
      | error e => rfl
      | ok res =>
        obtain ⟨ns2, la2, remain⟩ := res
        dsimp only
        cases hv : validateFields o remain with
        | error e => rfl
        | ok u =>
          dsimp only
          cases remain with
          | nil => rfl
          | cons r0 ps =>
            dsimp only
            rw [ih ns2 la2]

/-- A token with no leading dash classifies as positional. -/
theorem classifyFlagToken_noDash (tok : String)
    (htok : (match tok.data with | '-' :: _ => false | _ => true) = true) :
    classifyFlagToken tok = .positional := by
  unfold classifyFlagToken
  cases htd : tok.data with
  | nil => rfl
  | cons c cs =>
    split
    · rename_i heq
      rw [htd] at htok
      have hc : c = '-' := by
        have := congrArg (fun l => l.headD ' ') heq
        simpa using this
      subst hc
      simp at htok
    · rename_i heq
      rw [htd] at htok
      have hc : c = '-' := by
        have := congrArg (fun l => l.headD ' ') heq
        simpa using this
      subst hc
      simp at htok
    · rfl

/-- Fields without a leading dash are all positional: the flag state passes
through `pflag` parsing untouched. -/
theorem parseFlagTokens_noDash (toks : List String) : ∀ ns la,
    noDashToken toks = true → parseFlagTokens ns la toks = .ok (ns, la, toks) := by
  induction toks with
  | nil =>
    intro ns la _
    simp [parseFlagTokens]
  | cons tok rest ih =>
    intro ns la hnd
    rw [noDashToken, List.all_cons, Bool.and_eq_true] at hnd
    obtain ⟨htok, hrest⟩ := hnd
    rw [parseFlagTokens.eq_def]
    dsimp only
    rw [classifyFlagToken_noDash tok htok]
    dsimp only
    rw [ih ns la hrest, ebind_ok]
    rfl

/-- A non-skipped line whose fields carry no flag tokens yields a target
with the default namespace and listen address. -/
theorem parseTargetLine_noflag (o : String → Bool) (d line : String) (t : target)
    (hnd : noDashToken (fieldsAux (trimChars line.data) []) = true)
    (hok : parseTargetLine o d line = .ok (some t)) :
    t.ns = d ∧ t.lisAddr = defaultListenAddr := by
  unfold parseTargetLine at hok
  by_cases hskip : isSkippedLine (trimChars line.data) = true
  · rw [if_pos hskip] at hok
    simp at hok
  · rw [if_neg hskip] at hok
    rw [parseFlagTokens_noDash _ d defaultListenAddr hnd] at hok
    dsimp only at hok
    cases hv : validateFields o (fieldsAux (trimChars line.data) []) with
    | error e =>
      rw [hv] at hok
      simp at hok
    | ok u =>
      rw [hv] at hok
      dsimp only at hok
      cases hfields : fieldsAux (trimChars line.data) [] with
      | nil =>
        rw [hfields] at hok
        simp at hok
      | cons r0 ps =>
        rw [hfields] at hok
        simp only [Except.ok.injEq, Option.some.injEq] at hok
        rw [← hok]
        exact ⟨rfl, rfl⟩

/-- C10.  `parseTargetsFile` resets the `-n`/`--namespace` and
`-l`/`--address` flag variables to their defaults before parsing each
line: the whole file parses exactly as if every line were parsed in
isolation from the default flag state (so flags on earlier lines cannot
leak), and any line that sets no flags produces a target with the
caller-supplied default namespace and listen address 127.0.0.1. -/
theorem targets_file_line_independence :
    (∀ (isValidIP : String → Bool) (lines : List String) (defaultNamespace : String),
      parseTargetsFile isValidIP lines defaultNamespace
        = parseTargetsFileByLine isValidIP lines defaultNamespace)
  ∧ (∀ (isValidIP : String → Bool) (defaultNamespace line : String) (t : target),
      noDashToken (fieldsAux (trimChars line.data) []) = true →
      parseTargetLine isValidIP defaultNamespace line = .ok (some t) →
      t.ns = defaultNamespace ∧ t.lisAddr = defaultListenAddr) := by
  constructor
  · intro o lines d
    exact parseTargetsFileLoop_stateless o d lines d defaultListenAddr
  · intro o d line t hnd hok
    exact parseTargetLine_noflag o d line t hnd hok

/-- Closed instance of C10: in a two-line file whose first line sets
`-n other`, the flagless second line still gets the default namespace and
listen address. -/
theorem targets_file_line_independence_witness :
    parseTargetsFile (fun _ => false) ["-n other svc/a 80", "svc/b 90"] "default"
      = parseTargetsFileByLine (fun _ => false) ["-n other svc/a 80", "svc/b 90"] "default"
  ∧ parseTargetLine (fun _ => false) "default" "svc/b 90"
      = .ok (some ⟨"svc/b", ["90"], "default", "127.0.0.1"⟩)
  ∧ (⟨"svc/b", ["90"], "default", "127.0.0.1"⟩ : target).ns = "default"
  ∧ (⟨"svc/b", ["90"], "default", "127.0.0.1"⟩ : target).lisAddr = defaultListenAddr := by
  have heval : parseTargetLine (fun _ => false) "default" "svc/b 90"
      = .ok (some ⟨"svc/b", ["90"], "default", "127.0.0.1"⟩) := by
    unfold parseTargetLine
    rw [if_neg (by decide),
      show fieldsAux (trimChars ("svc/b 90").data) [] = ["svc/b", "90"] from rfl,
      parseFlagTokens_noDash _ _ _ (by decide)]
    rfl
  refine ⟨targets_file_line_independence.1 (fun _ => false) _ "default", heval, ?_, ?_⟩
  · exact (targets_file_line_independence.2 (fun _ => false) "default" "svc/b 90"
      ⟨"svc/b", ["90"], "default", "127.0.0.1"⟩ (by decide) heval).1
  · exact (targets_file_line_independence.2 (fun _ => false) "default" "svc/b 90"
      ⟨"svc/b", ["90"], "default", "127.0.0.1"⟩ (by decide) heval).2

end Krelay
